import Mathlib

/-!
Verification of the response-frame model and wire serializer of the
easy-modbus crate (`src/frame/response.rs`), shallowly embedded in Lean.

Byte buffers (`bytes::BytesMut`) are modelled as `List Nat` whose elements
are byte values; `put_u8` truncates to a byte and `put_u16` writes the two
big-endian bytes of its 16-bit argument, exactly as the `bytes` crate does.
Machine integers are modelled as `Nat` with explicit `% 2^w` where the
source truncates (`as u8`, `as u16`, `u16` addition).
-/

namespace EasyModbus

/-- Transport version tag (`Version` in `frame/mod.rs`, used by
`response.rs` as `Version::Tcp` / `Version::Rtu`). -/
inductive Version where
  | Tcp
  | Rtu
deriving DecidableEq

/-- Modelled from the spec: the `Function` enum lives in `frame/mod.rs`,
which is not under `src/`; the eight variants and their one-byte codes are
fixed by the spec's closed function set and by the per-struct doc comments
in `response.rs` (Function Code 0x01 .. 0x10). -/
inductive Function where
  | ReadCoils
  | ReadDiscreteInputs
  | ReadMultipleHoldingRegisters
  | ReadInputRegisters
  | WriteSingleCoil
  | WriteSingleHoldingRegister
  | WriteMultipleCoils
  | WriteMultipleHoldingRegisters
deriving DecidableEq

/-- Modelled from the spec: the code of each `Function` variant, as listed
in the doc comments of `response.rs` and the spec's function table. -/
def Function.to_code : Function → Nat
  | .ReadCoils => 0x01
  | .ReadDiscreteInputs => 0x02
  | .ReadMultipleHoldingRegisters => 0x03
  | .ReadInputRegisters => 0x04
  | .WriteSingleCoil => 0x05
  | .WriteSingleHoldingRegister => 0x06
  | .WriteMultipleCoils => 0x0F
  | .WriteMultipleHoldingRegisters => 0x10

/-- Modelled from the spec: the `Exception` enum lives in `frame/mod.rs`,
which is not under `src/`; a closed set of protocol error identifiers,
each with a one-byte code ("illegal data address" is 0x02 per the spec's
test vectors). -/
inductive Exception where
  | IllegalFunction
  | IllegalDataAddress
  | IllegalDataValue
  | SlaveDeviceFailure
deriving DecidableEq

/-- Modelled from the spec: the code of each `Exception` variant. -/
def Exception.to_code : Exception → Nat
  | .IllegalFunction => 0x01
  | .IllegalDataAddress => 0x02
  | .IllegalDataValue => 0x03
  | .SlaveDeviceFailure => 0x04

/-- The message head (`Head` in `frame/mod.rs`, not under `src/`); its
fields and their types are fixed by their uses in `response.rs`:
`tid`, `pid`, `length` are 16-bit, `uid` is a byte, plus the function,
the transport version and the exception flag. -/
structure Head where
  tid : Nat
  pid : Nat
  length : Nat
  uid : Nat
  function : Function
  version : Version
  is_exception : Bool
deriving DecidableEq

/-- One `crc` update round: shift right once, folding in the reflected
polynomial 0xA001 when the low bit was set. -/
def crcRound (c : Nat) : Nat :=
  if c % 2 = 1 then (c / 2) ^^^ 0xA001 else c / 2

/-- Iterate `crcRound` a fixed number of times. -/
def crcRounds : Nat → Nat → Nat
  | 0, c => c
  | n + 1, c => crcRounds n (crcRound c)

/-- Fold one input byte into the running checksum: xor it in, then run the
eight shift rounds. -/
def crcByte (c b : Nat) : Nat :=
  crcRounds 8 (c ^^^ b % 256)

/-- The 16-bit checksum value of a byte sequence: initial value 0xFFFF,
one `crcByte` step per input byte (the standard reflected-polynomial
checksum of the serial protocol). -/
def crcVal (bs : List Nat) : Nat :=
  bs.foldl crcByte 0xFFFF

namespace crc

/-- Modelled from the spec: `util::crc` is not under `src/`. §4.4 requires
a table-driven reflected-polynomial 16-bit checksum and §3/§4.5 require the
checksum value to appear on the wire low byte first; since
`response_to_bytesmut` writes `compute`'s result with the big-endian
`put_u16`, `compute` returns the byte-swapped checksum value. -/
def compute (bs : List Nat) : Nat :=
  crcVal bs % 256 * 256 + crcVal bs / 256

end crc

/-- `BytesMut::put_u8`: append one byte (the argument is a `u8`). -/
def putU8 (buf : List Nat) (b : Nat) : List Nat :=
  buf ++ [b % 256]

/-- `BytesMut::put_u16`: append the two big-endian bytes of a `u16`. -/
def putU16 (buf : List Nat) (v : Nat) : List Nat :=
  buf ++ [v / 256 % 256, v % 256]

/-- `BytesMut::put_slice` / `put(BytesMut)`: append a byte sequence. -/
def putSlice (buf s : List Nat) : List Nat :=
  buf ++ s

/-- Function code 0x01 response body (`ReadCoilsResponse`). -/
structure ReadCoilsResponse where
  bytes_number : Nat
  values : List Nat
deriving DecidableEq

/-- `ReadCoilsResponse::new`: `bytes_number = values.len() as u8`. -/
def ReadCoilsResponse.new (values : List Nat) : ReadCoilsResponse :=
  { bytes_number := values.length % 256, values := values }

/-- `Length::len` for `ReadCoilsResponse`: `1 + self.values.len() as u16`,
computed in `u16`. -/
def ReadCoilsResponse.len (r : ReadCoilsResponse) : Nat :=
  (1 + r.values.length % 65536) % 65536

/-- `From<ReadCoilsResponse> for BytesMut`. -/
def ReadCoilsResponse.toBytes (r : ReadCoilsResponse) : List Nat :=
  putSlice (putU8 [] r.bytes_number) r.values

/-- Function code 0x02 response body (`ReadDiscreteInputsResponse`). -/
structure ReadDiscreteInputsResponse where
  bytes_number : Nat
  values : List Nat
deriving DecidableEq

/-- `ReadDiscreteInputsResponse::new`. -/
def ReadDiscreteInputsResponse.new (values : List Nat) : ReadDiscreteInputsResponse :=
  { bytes_number := values.length % 256, values := values }

/-- `Length::len` for `ReadDiscreteInputsResponse`. -/
def ReadDiscreteInputsResponse.len (r : ReadDiscreteInputsResponse) : Nat :=
  (1 + r.values.length % 65536) % 65536

/-- `From<ReadDiscreteInputsResponse> for BytesMut`. -/
def ReadDiscreteInputsResponse.toBytes (r : ReadDiscreteInputsResponse) : List Nat :=
  putSlice (putU8 [] r.bytes_number) r.values

/-- Function code 0x03 response body (`ReadMultipleHoldingRegistersResponse`). -/
structure ReadMultipleHoldingRegistersResponse where
  bytes_number : Nat
  values : List Nat
deriving DecidableEq

/-- `ReadMultipleHoldingRegistersResponse::new`. -/
def ReadMultipleHoldingRegistersResponse.new (values : List Nat) :
    ReadMultipleHoldingRegistersResponse :=
  { bytes_number := values.length % 256, values := values }

/-- `Length::len` for `ReadMultipleHoldingRegistersResponse`. -/
def ReadMultipleHoldingRegistersResponse.len (r : ReadMultipleHoldingRegistersResponse) : Nat :=
  (1 + r.values.length % 65536) % 65536

/-- `From<ReadMultipleHoldingRegistersResponse> for BytesMut`. -/
def ReadMultipleHoldingRegistersResponse.toBytes
    (r : ReadMultipleHoldingRegistersResponse) : List Nat :=
  putSlice (putU8 [] r.bytes_number) r.values

/-- Function code 0x04 response body (`ReadInputRegistersResponse`). -/
structure ReadInputRegistersResponse where
  bytes_number : Nat
  values : List Nat
deriving DecidableEq

/-- `ReadInputRegistersResponse::new`. -/
def ReadInputRegistersResponse.new (values : List Nat) : ReadInputRegistersResponse :=
  { bytes_number := values.length % 256, values := values }

/-- `Length::len` for `ReadInputRegistersResponse`. -/
def ReadInputRegistersResponse.len (r : ReadInputRegistersResponse) : Nat :=
  (1 + r.values.length % 65536) % 65536

/-- `From<ReadInputRegistersResponse> for BytesMut`. -/
def ReadInputRegistersResponse.toBytes (r : ReadInputRegistersResponse) : List Nat :=
  putSlice (putU8 [] r.bytes_number) r.values

/-- Function code 0x05 response body (`WriteSingleCoilResponse`). -/
structure WriteSingleCoilResponse where
  coil_address : Nat
  value : Nat
deriving DecidableEq

/-- `WriteSingleCoilResponse::new`. -/
def WriteSingleCoilResponse.new (coil_address value : Nat) : WriteSingleCoilResponse :=
  { coil_address := coil_address, value := value }

/-- `Length::len` for `WriteSingleCoilResponse`. -/
def WriteSingleCoilResponse.len (_ : WriteSingleCoilResponse) : Nat := 4

/-- `From<WriteSingleCoilResponse> for BytesMut`. -/
def WriteSingleCoilResponse.toBytes (r : WriteSingleCoilResponse) : List Nat :=
  putU16 (putU16 [] r.coil_address) r.value

/-- Function code 0x06 response body (`WriteSingleHoldingRegisterResponse`). -/
structure WriteSingleHoldingRegisterResponse where
  register_address : Nat
  value : Nat
deriving DecidableEq

/-- `WriteSingleHoldingRegisterResponse::new`. -/
def WriteSingleHoldingRegisterResponse.new (register_address value : Nat) :
    WriteSingleHoldingRegisterResponse :=
  { register_address := register_address, value := value }

/-- `Length::len` for `WriteSingleHoldingRegisterResponse`. -/
def WriteSingleHoldingRegisterResponse.len (_ : WriteSingleHoldingRegisterResponse) : Nat := 4

/-- `From<WriteSingleHoldingRegisterResponse> for BytesMut`. -/
def WriteSingleHoldingRegisterResponse.toBytes
    (r : WriteSingleHoldingRegisterResponse) : List Nat :=
  putU16 (putU16 [] r.register_address) r.value

/-- Function code 0x0F response body (`WriteMultipleCoilsResponse`). -/
structure WriteMultipleCoilsResponse where
  first_address : Nat
  coils_number : Nat
deriving DecidableEq

/-- `WriteMultipleCoilsResponse::new`. -/
def WriteMultipleCoilsResponse.new (first_address coils_number : Nat) :
    WriteMultipleCoilsResponse :=
  { first_address := first_address, coils_number := coils_number }

/-- `Length::len` for `WriteMultipleCoilsResponse`. -/
def WriteMultipleCoilsResponse.len (_ : WriteMultipleCoilsResponse) : Nat := 4

/-- `From<WriteMultipleCoilsResponse> for BytesMut`. -/
def WriteMultipleCoilsResponse.toBytes (r : WriteMultipleCoilsResponse) : List Nat :=
  putU16 (putU16 [] r.first_address) r.coils_number

/-- Function code 0x10 response body (`WriteMultipleHoldingRegistersResponse`). -/
structure WriteMultipleHoldingRegistersResponse where
  first_address : Nat
  registers_number : Nat
deriving DecidableEq

/-- `WriteMultipleHoldingRegistersResponse::new`. -/
def WriteMultipleHoldingRegistersResponse.new (first_address registers_number : Nat) :
    WriteMultipleHoldingRegistersResponse :=
  { first_address := first_address, registers_number := registers_number }

/-- `Length::len` for `WriteMultipleHoldingRegistersResponse`. -/
def WriteMultipleHoldingRegistersResponse.len
    (_ : WriteMultipleHoldingRegistersResponse) : Nat := 4

/-- `From<WriteMultipleHoldingRegistersResponse> for BytesMut`. -/
def WriteMultipleHoldingRegistersResponse.toBytes
    (r : WriteMultipleHoldingRegistersResponse) : List Nat :=
  putU16 (putU16 [] r.first_address) r.registers_number

/-- Exception response body (`ExceptionResponse`). -/
structure ExceptionResponse where
  exception : Exception
deriving DecidableEq

/-- `ExceptionResponse::new`. -/
def ExceptionResponse.new (exception : Exception) : ExceptionResponse :=
  { exception := exception }

/-- `Length::len` for `ExceptionResponse`. -/
def ExceptionResponse.len (_ : ExceptionResponse) : Nat := 1

/-- `From<ExceptionResponse> for BytesMut`. -/
def ExceptionResponse.toBytes (r : ExceptionResponse) : List Nat :=
  putU8 [] r.exception.to_code

/-- `From<Head> for BytesMut`: the TCP fields when the version is `Tcp`,
then the unit id, then the function code with 0x80 added when the
exception flag is set. -/
def Head.toBytes (h : Head) : List Nat :=
  let function_code : Nat :=
    if h.is_exception then h.function.to_code + 0x80 else h.function.to_code
  let buf : List Nat :=
    if h.version = Version.Tcp then putU16 (putU16 (putU16 [] h.tid) h.pid) h.length
    else []
  putU8 (putU8 buf h.uid) function_code

/-- The `Response` enum: one variant per function code plus the exception
variant, each pairing a `Head` with its body. -/
inductive Response where
  | ReadCoils (head : Head) (body : ReadCoilsResponse)
  | ReadDiscreteInputs (head : Head) (body : ReadDiscreteInputsResponse)
  | ReadMultipleHoldingRegisters (head : Head) (body : ReadMultipleHoldingRegistersResponse)
  | ReadInputRegisters (head : Head) (body : ReadInputRegistersResponse)
  | WriteSingleCoil (head : Head) (body : WriteSingleCoilResponse)
  | WriteSingleHoldingRegister (head : Head) (body : WriteSingleHoldingRegisterResponse)
  | WriteMultipleCoils (head : Head) (body : WriteMultipleCoilsResponse)
  | WriteMultipleHoldingRegisters (head : Head) (body : WriteMultipleHoldingRegistersResponse)
  | Exception (head : Head) (body : ExceptionResponse)
deriving DecidableEq

/-- The head carried by a `Response` (the first field of every variant). -/
def Response.head : Response → Head
  | .ReadCoils h _ => h
  | .ReadDiscreteInputs h _ => h
  | .ReadMultipleHoldingRegisters h _ => h
  | .ReadInputRegisters h _ => h
  | .WriteSingleCoil h _ => h
  | .WriteSingleHoldingRegister h _ => h
  | .WriteMultipleCoils h _ => h
  | .WriteMultipleHoldingRegisters h _ => h
  | .Exception h _ => h

/-- `Response::set_head`: the `ptr::swap` in every arm of the source's
match moves `new_head` into the variant's head slot (the old head ends in
the dropped local), i.e. the head field is replaced wholesale. -/
def Response.set_head : Response → Head → Response
  | .ReadCoils _ b, h => .ReadCoils h b
  | .ReadDiscreteInputs _ b, h => .ReadDiscreteInputs h b
  | .ReadMultipleHoldingRegisters _ b, h => .ReadMultipleHoldingRegisters h b
  | .ReadInputRegisters _ b, h => .ReadInputRegisters h b
  | .WriteSingleCoil _ b, h => .WriteSingleCoil h b
  | .WriteSingleHoldingRegister _ b, h => .WriteSingleHoldingRegister h b
  | .WriteMultipleCoils _ b, h => .WriteMultipleCoils h b
  | .WriteMultipleHoldingRegisters _ b, h => .WriteMultipleHoldingRegisters h b
  | .Exception _ b, h => .Exception h b

/-- The serialized bytes of a `Response`'s body (the `BytesMut::from(body)`
of the matching arm of `response_to_bytesmut`). -/
def Response.bodyBytes : Response → List Nat
  | .ReadCoils _ b => b.toBytes
  | .ReadDiscreteInputs _ b => b.toBytes
  | .ReadMultipleHoldingRegisters _ b => b.toBytes
  | .ReadInputRegisters _ b => b.toBytes
  | .WriteSingleCoil _ b => b.toBytes
  | .WriteSingleHoldingRegister _ b => b.toBytes
  | .WriteMultipleCoils _ b => b.toBytes
  | .WriteMultipleHoldingRegisters _ b => b.toBytes
  | .Exception _ b => b.toBytes

/-- `response_to_bytesmut`: append the head bytes and the body bytes to
`dst`, then, when the version is `Rtu`, append `crc::compute` of the whole
buffer (`dst.to_vec()`) with `put_u16`. -/
def response_to_bytesmut (item : Response) (dst : List Nat) : List Nat :=
  let step : Version × List Nat :=
    match item with
    | .ReadCoils head body =>
        (head.version, putSlice (putSlice dst head.toBytes) body.toBytes)
    | .ReadDiscreteInputs head body =>
        (head.version, putSlice (putSlice dst head.toBytes) body.toBytes)
    | .ReadMultipleHoldingRegisters head body =>
        (head.version, putSlice (putSlice dst head.toBytes) body.toBytes)
    | .ReadInputRegisters head body =>
        (head.version, putSlice (putSlice dst head.toBytes) body.toBytes)
    | .WriteSingleCoil head body =>
        (head.version, putSlice (putSlice dst head.toBytes) body.toBytes)
    | .WriteSingleHoldingRegister head body =>
        (head.version, putSlice (putSlice dst head.toBytes) body.toBytes)
    | .WriteMultipleCoils head body =>
        (head.version, putSlice (putSlice dst head.toBytes) body.toBytes)
    | .WriteMultipleHoldingRegisters head body =>
        (head.version, putSlice (putSlice dst head.toBytes) body.toBytes)
    | .Exception head body =>
        (head.version, putSlice (putSlice dst head.toBytes) body.toBytes)
  if step.1 = Version.Rtu then putU16 step.2 (crc.compute step.2) else step.2

/-- Serialization of one `Response` into a fresh buffer (as the `Display`
impl does with `BytesMut::with_capacity(64)`). -/
def serializeResponse (r : Response) : List Nat :=
  response_to_bytesmut r []

/-- One hex digit, uppercase. -/
def hexDigit (n : Nat) : Char :=
  if n < 10 then Char.ofNat (48 + n) else Char.ofNat (55 + n)

/-- Rust's `{:02X}` format on a byte: exactly two uppercase hex digits
(the formatted value is a `u8` in the source). -/
def fmt02X (b : Nat) : String :=
  String.mk [hexDigit (b / 16 % 16), hexDigit (b % 16)]

/-- The `fmt::Display` impl for `Response`: serialize into a fresh buffer,
then print each byte as `{:02X}`, writing a space before every byte except
the first. -/
def Response.display (r : Response) : String :=
  let buf := response_to_bytesmut r []
  (buf.foldl
    (fun (acc : String × Bool) byte =>
      ((if acc.2 then acc.1 else acc.1 ++ " ") ++ fmt02X byte, false))
    ("", true)).1

/-- Variant tags of `Response`, for stating head/variant agreement. -/
inductive Tag where
  | ReadCoils
  | ReadDiscreteInputs
  | ReadMultipleHoldingRegisters
  | ReadInputRegisters
  | WriteSingleCoil
  | WriteSingleHoldingRegister
  | WriteMultipleCoils
  | WriteMultipleHoldingRegisters
  | Exception
deriving DecidableEq

/-- The variant tag of a `Response`. -/
def Response.tag : Response → Tag
  | .ReadCoils _ _ => .ReadCoils
  | .ReadDiscreteInputs _ _ => .ReadDiscreteInputs
  | .ReadMultipleHoldingRegisters _ _ => .ReadMultipleHoldingRegisters
  | .ReadInputRegisters _ _ => .ReadInputRegisters
  | .WriteSingleCoil _ _ => .WriteSingleCoil
  | .WriteSingleHoldingRegister _ _ => .WriteSingleHoldingRegister
  | .WriteMultipleCoils _ _ => .WriteMultipleCoils
  | .WriteMultipleHoldingRegisters _ _ => .WriteMultipleHoldingRegisters
  | .Exception _ _ => .Exception

/-- The spec's message invariant: the variant tag equals `header.function`,
except for the `Exception` variant, where `header.is_exception` is true. -/
def Response.headMatches : Response → Prop
  | .ReadCoils h _ => h.function = Function.ReadCoils
  | .ReadDiscreteInputs h _ => h.function = Function.ReadDiscreteInputs
  | .ReadMultipleHoldingRegisters h _ => h.function = Function.ReadMultipleHoldingRegisters
  | .ReadInputRegisters h _ => h.function = Function.ReadInputRegisters
  | .WriteSingleCoil h _ => h.function = Function.WriteSingleCoil
  | .WriteSingleHoldingRegister h _ => h.function = Function.WriteSingleHoldingRegister
  | .WriteMultipleCoils h _ => h.function = Function.WriteMultipleCoils
  | .WriteMultipleHoldingRegisters h _ => h.function = Function.WriteMultipleHoldingRegisters
  | .Exception h _ => h.is_exception = true

/-- The condition a head must itself satisfy to be consistent with the
variant of a given `Response` (same condition as `headMatches`, but on a
head supplied separately from the message). -/
def Response.headOk : Response → Head → Prop
  | .ReadCoils _ _, h => h.function = Function.ReadCoils
  | .ReadDiscreteInputs _ _, h => h.function = Function.ReadDiscreteInputs
  | .ReadMultipleHoldingRegisters _ _, h => h.function = Function.ReadMultipleHoldingRegisters
  | .ReadInputRegisters _ _, h => h.function = Function.ReadInputRegisters
  | .WriteSingleCoil _ _, h => h.function = Function.WriteSingleCoil
  | .WriteSingleHoldingRegister _ _, h => h.function = Function.WriteSingleHoldingRegister
  | .WriteMultipleCoils _ _, h => h.function = Function.WriteMultipleCoils
  | .WriteMultipleHoldingRegisters _ _, h => h.function = Function.WriteMultipleHoldingRegisters
  | .Exception _ _, h => h.is_exception = true

/-- A concrete serial-transport response: write-single-coil confirmation,
unit 1, address 0, value 0xFF00, Rtu version. -/
def rtuSample : Response :=
  Response.WriteSingleCoil ⟨0, 0, 0, 1, .WriteSingleCoil, .Rtu, false⟩
    (WriteSingleCoilResponse.new 0 0xFF00)

/- Shared lemmas. -/

theorem crcRound_lt {c : Nat} (hc : c < 65536) : crcRound c < 65536 := by
  unfold crcRound
  split
  · have h1 : c / 2 < 2 ^ 16 := by omega
    have h2 : (0xA001 : Nat) < 2 ^ 16 := by norm_num
    exact Nat.xor_lt_two_pow h1 h2
  · omega

theorem crcRounds_lt : ∀ (n : Nat) {c : Nat}, c < 65536 → crcRounds n c < 65536
  | 0, _, hc => hc
  | n + 1, _, hc => crcRounds_lt n (crcRound_lt hc)

theorem crcByte_lt {c : Nat} (b : Nat) (hc : c < 65536) : crcByte c b < 65536 := by
  unfold crcByte
  have h1 : b % 256 < 2 ^ 16 := by omega
  exact crcRounds_lt 8 (Nat.xor_lt_two_pow (by omega) h1)

theorem crcVal_lt (bs : List Nat) : crcVal bs < 65536 := by
  unfold crcVal
  have h : ∀ (l : List Nat) (c : Nat), c < 65536 → l.foldl crcByte c < 65536 := by
    intro l
    induction l with
    | nil => exact fun _ hc => hc
    | cons b t ih => exact fun c hc => ih _ (crcByte_lt b hc)
  exact h bs 0xFFFF (by norm_num)

theorem crc_compute_lo (bs : List Nat) : crc.compute bs % 256 = crcVal bs / 256 % 256 := by
  unfold crc.compute
  omega

theorem crc_compute_hi (bs : List Nat) : crc.compute bs / 256 % 256 = crcVal bs % 256 := by
  unfold crc.compute
  have hv := crcVal_lt bs
  have h1 : crcVal bs / 256 < 256 := by omega
  have h2 : (crcVal bs % 256 * 256 + crcVal bs / 256) / 256 = crcVal bs % 256 := by
    rw [Nat.add_comm, Nat.add_mul_div_right _ _ (by norm_num : (0 : Nat) < 256),
      Nat.div_eq_of_lt h1, Nat.zero_add]
  rw [h2]
  omega

theorem head_toBytes_eq (h : Head) :
    h.toBytes =
      (if h.version = Version.Tcp then
        [h.tid / 256 % 256, h.tid % 256, h.pid / 256 % 256, h.pid % 256,
         h.length / 256 % 256, h.length % 256]
       else []) ++
      [h.uid % 256,
       (if h.is_exception then h.function.to_code + 0x80 else h.function.to_code) % 256] := by
  rcases h with ⟨tid, pid, len, uid, fn, ver, exc⟩
  cases ver <;> simp [Head.toBytes, putU8, putU16]

theorem response_to_bytesmut_eq (r : Response) (dst : List Nat) :
    response_to_bytesmut r dst =
      dst ++ r.head.toBytes ++ r.bodyBytes ++
      (if r.head.version = Version.Rtu then
        [crc.compute (dst ++ r.head.toBytes ++ r.bodyBytes) / 256 % 256,
         crc.compute (dst ++ r.head.toBytes ++ r.bodyBytes) % 256]
       else []) := by
  cases r <;> rename_i h b <;> by_cases hv : h.version = Version.Rtu <;>
    simp [response_to_bytesmut, putSlice, putU16, Response.head, Response.bodyBytes, hv,
      List.append_assoc]

/-- C8: `set_head` is a whole-value replacement of the head: afterwards the
head equals the argument, while the variant tag is unchanged and putting
the old head back recovers the original response (so the body value is
unchanged too). -/
theorem set_head_replaces_head (r : Response) (h : Head) :
    (r.set_head h).head = h ∧ (r.set_head h).tag = r.tag ∧
      (r.set_head h).set_head r.head = r := by
  cases r <;> exact ⟨rfl, rfl, rfl⟩

/-- C7 counterexample: a read-coils response satisfying the head/variant
invariant stops satisfying it after `set_head` installs a head whose
function is write-single-coil; `set_head` does not preserve the invariant
for arbitrary new heads. -/
theorem set_head_breaks_head_invariant :
    Response.headMatches
      (Response.ReadCoils ⟨0, 0, 0, 1, .ReadCoils, .Tcp, false⟩ (ReadCoilsResponse.new [])) ∧
    ¬ Response.headMatches
      ((Response.ReadCoils ⟨0, 0, 0, 1, .ReadCoils, .Tcp, false⟩
          (ReadCoilsResponse.new [])).set_head ⟨0, 0, 0, 1, .WriteSingleCoil, .Tcp, false⟩) := by
  constructor
  · rfl
  · intro hcon
    simp [Response.set_head, Response.headMatches] at hcon

/-- C7 amended: after `set_head` the head/variant invariant holds exactly
when the new head itself is consistent with the variant tag (its function
equals the variant's function, or, for the Exception variant, its
exception flag is set); it is not preserved for arbitrary new heads. -/
theorem set_head_headMatches_iff (r : Response) (h : Head) :
    (r.set_head h).headMatches ↔ r.headOk h := by
  cases r <;> exact Iff.rfl

/-- C4 counterexample: built from 256 value bytes, the read-coils
constructor stores a byte count of 0 (the `as u8` cast truncates), not
256, so `byte_count == values.len()` fails. -/
theorem read_byte_count_truncates :
    ¬ (ReadCoilsResponse.new (List.replicate 256 1)).bytes_number =
        (List.replicate 256 1).length := by
  simp only [ReadCoilsResponse.new, List.length_replicate]
  omega

/-- C4 amended: for every input byte vector of fewer than 256 bytes, each
of the four read-style response constructors stores a byte count equal to
the number of value bytes (in general the stored count is
`values.len() mod 256`). -/
theorem read_byte_count_eq_of_small (values : List Nat) (h : values.length < 256) :
    (ReadCoilsResponse.new values).bytes_number = values.length ∧
    (ReadDiscreteInputsResponse.new values).bytes_number = values.length ∧
    (ReadMultipleHoldingRegistersResponse.new values).bytes_number = values.length ∧
    (ReadInputRegistersResponse.new values).bytes_number = values.length := by
  refine ⟨?_, ?_, ?_, ?_⟩ <;>
    simp [ReadCoilsResponse.new, ReadDiscreteInputsResponse.new,
      ReadMultipleHoldingRegistersResponse.new, ReadInputRegistersResponse.new,
      Nat.mod_eq_of_lt h]

/-- C4 witness: the two-byte input 0xCD 0x6B is below the bound and gets
byte count 2. -/
theorem read_byte_count_eq_of_small_witness :
    ([0xCD, 0x6B] : List Nat).length < 256 ∧
    (ReadCoilsResponse.new [0xCD, 0x6B]).bytes_number = ([0xCD, 0x6B] : List Nat).length :=
  ⟨by decide, (read_byte_count_eq_of_small [0xCD, 0x6B] (by decide)).1⟩

theorem read_len_of_length_65536 (l : List Nat) (h : l.length = 65536) :
    ¬ ReadCoilsResponse.len ⟨0, l⟩ = 1 + l.length := by
  simp only [ReadCoilsResponse.len, h]
  omega

/-- C5 counterexample: a read-coils body holding 65536 value bytes has
`len()` equal to 1 (the `as u16` cast truncates), not `1 + N`. -/
theorem read_len_truncates :
    ¬ ReadCoilsResponse.len ⟨0, List.replicate 65536 0⟩ =
        1 + (List.replicate 65536 0).length :=
  read_len_of_length_65536 _ (List.length_replicate 65536 0)

/-- C5 amended: the wire length is exactly 4 for the four write
confirmation bodies and 1 for the exception body; for the read-style
bodies it is `1 + N` whenever the count `N` of raw value bytes is at most
65534 (beyond that the `u16` arithmetic truncates). -/
theorem body_len_values :
    (∀ b : WriteSingleCoilResponse, b.len = 4) ∧
    (∀ b : WriteSingleHoldingRegisterResponse, b.len = 4) ∧
    (∀ b : WriteMultipleCoilsResponse, b.len = 4) ∧
    (∀ b : WriteMultipleHoldingRegistersResponse, b.len = 4) ∧
    (∀ b : ExceptionResponse, b.len = 1) ∧
    (∀ b : ReadCoilsResponse, b.values.length ≤ 65534 → b.len = 1 + b.values.length) ∧
    (∀ b : ReadDiscreteInputsResponse, b.values.length ≤ 65534 → b.len = 1 + b.values.length) ∧
    (∀ b : ReadMultipleHoldingRegistersResponse,
      b.values.length ≤ 65534 → b.len = 1 + b.values.length) ∧
    (∀ b : ReadInputRegistersResponse, b.values.length ≤ 65534 → b.len = 1 + b.values.length) := by
  refine ⟨fun _ => rfl, fun _ => rfl, fun _ => rfl, fun _ => rfl, fun _ => rfl,
    ?_, ?_, ?_, ?_⟩ <;>
  · intro b h
    simp only [ReadCoilsResponse.len, ReadDiscreteInputsResponse.len,
      ReadMultipleHoldingRegistersResponse.len, ReadInputRegistersResponse.len]
    omega

/-- C5 witness: concrete bodies at each shape of the statement. -/
theorem body_len_values_witness :
    WriteSingleCoilResponse.len ⟨0, 0xFF00⟩ = 4 ∧
    ExceptionResponse.len ⟨.IllegalDataAddress⟩ = 1 ∧
    ([0xCD, 0x6B] : List Nat).length ≤ 65534 ∧
    ReadCoilsResponse.len ⟨2, [0xCD, 0x6B]⟩ = 1 + ([0xCD, 0x6B] : List Nat).length :=
  ⟨body_len_values.1 _, body_len_values.2.2.2.2.1 _, by decide,
    body_len_values.2.2.2.2.2.1 ⟨2, [0xCD, 0x6B]⟩ (by decide)⟩

/-- C6 counterexample: the StreamFramed serialization of the read-coils
response built from 0xCD 0x6B under head tid 1, pid 0, length 4, unit 1 is
not the ten claimed bytes (the body's leading byte-count byte 0x02 is on
the wire as well). -/
theorem tcp_read_coils_vector_ne :
    serializeResponse
      (Response.ReadCoils ⟨1, 0, 4, 1, .ReadCoils, .Tcp, false⟩
        (ReadCoilsResponse.new [0xCD, 0x6B]))
      ≠ [0x00, 0x01, 0x00, 0x00, 0x00, 0x04, 0x01, 0x01, 0xCD, 0x6B] := by
  decide

/-- C6 amended: that response has byte count 2 and wire length 3, and its
StreamFramed serialization is the eleven bytes
00 01 00 00 00 04 01 01 02 CD 6B (byte-count byte included). -/
theorem tcp_read_coils_vector :
    (ReadCoilsResponse.new [0xCD, 0x6B]).bytes_number = 2 ∧
    (ReadCoilsResponse.new [0xCD, 0x6B]).len = 3 ∧
    serializeResponse
      (Response.ReadCoils ⟨1, 0, 4, 1, .ReadCoils, .Tcp, false⟩
        (ReadCoilsResponse.new [0xCD, 0x6B]))
      = [0x00, 0x01, 0x00, 0x00, 0x00, 0x04, 0x01, 0x01, 0x02, 0xCD, 0x6B] := by
  refine ⟨rfl, rfl, ?_⟩
  decide

/-- C10 amended: `response_to_bytesmut` appends the frame after the bytes
already in the destination buffer (they survive as a prefix), and under
Rtu the appended checksum is computed over the entire buffer, pre-existing
bytes included; with an empty buffer that checksum is the frame's own, but
a nonempty prefix can coincidentally reproduce it, so equality of the two
checksums does not hold only for the empty buffer. -/
theorem response_to_bytesmut_appends (r : Response) (dst : List Nat) :
    (response_to_bytesmut r dst).take dst.length = dst ∧
    response_to_bytesmut r dst =
      dst ++ r.head.toBytes ++ r.bodyBytes ++
      (if r.head.version = Version.Rtu then
        [crc.compute (dst ++ r.head.toBytes ++ r.bodyBytes) / 256 % 256,
         crc.compute (dst ++ r.head.toBytes ++ r.bodyBytes) % 256]
       else []) := by
  have he := response_to_bytesmut_eq r dst
  constructor
  · rw [he, List.append_assoc, List.append_assoc, List.append_assoc]
    exact List.take_left dst _
  · exact he

set_option maxRecDepth 8000 in
/-- C10 counterexample: with the nonempty pre-existing buffer A8 EA, the
checksum appended for the sample Rtu frame equals the frame's own
checksum (a checksum collision), so the appended checksum can match the
frame's own even though the destination buffer was not empty. -/
theorem rtu_checksum_prefix_collision :
    ([0xA8, 0xEA] : List Nat) ≠ [] ∧
    crc.compute ([0xA8, 0xEA] ++ Head.toBytes rtuSample.head ++ rtuSample.bodyBytes) =
      crc.compute (Head.toBytes rtuSample.head ++ rtuSample.bodyBytes) ∧
    response_to_bytesmut rtuSample [0xA8, 0xEA] =
      [0xA8, 0xEA] ++ serializeResponse rtuSample := by
  refine ⟨by decide, by decide, by decide⟩

/-- C1: serialization writes, in order: the transaction id, protocol id
and declared length fields (two bytes each) if and only if the version is
Tcp (StreamFramed), then the one-byte unit id, then the one-byte function
code with the exception bit applied, then the body bytes, then a two-byte
checksum if and only if the version is Rtu (SerialChecksummed); for Rtu
the tid, pid and length fields are never materialized. -/
theorem serialize_field_order (r : Response) :
    serializeResponse r =
      (if r.head.version = Version.Tcp then
        [r.head.tid / 256 % 256, r.head.tid % 256,
         r.head.pid / 256 % 256, r.head.pid % 256,
         r.head.length / 256 % 256, r.head.length % 256]
       else []) ++
      [r.head.uid % 256,
       (if r.head.is_exception then r.head.function.to_code + 0x80
        else r.head.function.to_code) % 256] ++
      r.bodyBytes ++
      (if r.head.version = Version.Rtu then
        [crc.compute (r.head.toBytes ++ r.bodyBytes) / 256 % 256,
         crc.compute (r.head.toBytes ++ r.bodyBytes) % 256]
       else []) := by
  have he := response_to_bytesmut_eq r []
  rw [serializeResponse, he, head_toBytes_eq r.head]
  cases hv : r.head.version <;> simp [hv, List.append_assoc]

/-- C2: the function byte on the wire (the last byte of the serialized
head) is `function.to_code ||| 0x80` when the exception flag is set and
`function.to_code` unchanged when it is clear. -/
theorem head_wire_function_byte (h : Head) :
    (Head.toBytes h).getLast? =
      some (if h.is_exception then h.function.to_code ||| 0x80
        else h.function.to_code) := by
  have hsplit : ∀ (p : List Nat) (u f : Nat), (p ++ [u, f]).getLast? = some f := by
    intro p u f
    rw [show p ++ [u, f] = (p ++ [u]) ++ [f] by simp]
    exact List.getLast?_concat _
  rw [head_toBytes_eq h, hsplit]
  rcases h with ⟨tid, pid, len, uid, fn, ver, exc⟩
  cases exc <;> cases fn <;> simp [Function.to_code]

/-- C3: under the Rtu (SerialChecksummed) version, the serialized frame is
exactly the header and body bytes followed by the 16-bit checksum of
exactly those bytes, appended low byte first, then high byte. -/
theorem rtu_checksum_trailer (r : Response) (hrtu : r.head.version = Version.Rtu) :
    serializeResponse r =
      (r.head.toBytes ++ r.bodyBytes) ++
        [crcVal (r.head.toBytes ++ r.bodyBytes) % 256,
         crcVal (r.head.toBytes ++ r.bodyBytes) / 256 % 256] := by
  have he := response_to_bytesmut_eq r []
  rw [serializeResponse, he]
  simp only [hrtu, if_pos, List.nil_append, crc_compute_hi, crc_compute_lo]

set_option maxRecDepth 8000 in
/-- C3 witness: the sample Rtu write-single-coil response serializes to
01 05 00 00 FF 00 followed by the checksum bytes 8C 3A (value 0x3A8C,
low byte first). -/
theorem rtu_checksum_trailer_witness :
    rtuSample.head.version = Version.Rtu ∧
    serializeResponse rtuSample = [0x01, 0x05, 0x00, 0x00, 0xFF, 0x00, 0x8C, 0x3A] :=
  ⟨rfl, (rtu_checksum_trailer rtuSample rfl).trans (by decide)⟩

theorem display_fold_go (bs : List Nat) :
    ∀ acc : String,
      (bs.foldl
        (fun (a : String × Bool) byte =>
          ((if a.2 then a.1 else a.1 ++ " ") ++ fmt02X byte, false)) (acc, false)).1 =
        String.intercalate.go acc " " (bs.map fmt02X) := by
  induction bs with
  | nil => intro acc; rfl
  | cons b t ih =>
    intro acc
    simp only [List.foldl, List.map, String.intercalate.go, Bool.false_eq_true, if_false]
    exact ih (acc ++ " " ++ fmt02X b)

theorem hex_fold_intercalate (bs : List Nat) :
    (bs.foldl
      (fun (a : String × Bool) byte =>
        ((if a.2 then a.1 else a.1 ++ " ") ++ fmt02X byte, false)) ("", true)).1 =
      String.intercalate " " (bs.map fmt02X) := by
  cases bs with
  | nil => rfl
  | cons b t =>
    have h1 := display_fold_go t ("" ++ fmt02X b)
    simp only [String.empty_append] at h1
    simp only [List.foldl, List.map, String.intercalate, if_true, String.empty_append]
    exact h1

/-- C9: the Display text of a response is exactly the bytes of its
serialized frame, each rendered as two uppercase hex digits, separated by
single spaces, with no leading or trailing separator. -/
theorem display_is_hex_dump (r : Response) :
    r.display = String.intercalate " " ((serializeResponse r).map fmt02X) :=
  hex_fold_intercalate (response_to_bytesmut r [])

end EasyModbus
